import Mathlib

/-!
Shallow embedding of the tile server and navigation simulator (src/main.py)
and proofs of the specified properties.

Python floats are modelled as real numbers; the float infinity initialising
the nearest-point scan is modelled as the top element of WithTop Real.
A Python IndexError (or any exception escaping a handler) is modelled by
Option: none means the operation raised.
-/

open scoped Classical

noncomputable section

/-- Waypoint pydantic model of src/main.py: longitude and latitude in degrees. -/
structure Waypoint where
  lon : ℝ
  lat : ℝ

/-- Agent state: the robot_state dict of src/main.py. -/
structure AgentState where
  id : String
  lat : ℝ
  lon : ℝ
  heading : ℤ

/-- The whole mutable process state: robot_state, app.state.mission_waypoints
and the global target_idx. -/
structure SystemState where
  robot : AgentState
  mission_waypoints : List (ℝ × ℝ)
  target_idx : ℤ

/-- Initial robot_state of src/main.py line 35. -/
def robot_state : AgentState :=
  { id := "rover-01", lat := 37.41451, lon := -122.42215, heading := 90 }

/-- Initial process state: empty mission, sentinel target index. -/
def init : SystemState :=
  { robot := robot_state, mission_waypoints := [], target_idx := -1 }

/-- math.radians: degrees to radians. -/
def radians (x : ℝ) : ℝ := x * Real.pi / 180

/-- math.atan2 with the usual quadrant conventions (atan2 0 0 = 0 as in Python). -/
def atan2 (y x : ℝ) : ℝ :=
  if 0 < x then Real.arctan (y / x)
  else if x < 0 then
    (if 0 ≤ y then Real.arctan (y / x) + Real.pi else Real.arctan (y / x) - Real.pi)
  else
    (if 0 < y then Real.pi / 2 else if y < 0 then -(Real.pi / 2) else 0)

/-- math.hypot. -/
def hypot (x y : ℝ) : ℝ := Real.sqrt (x ^ 2 + y ^ 2)

/-- haversine_distance of src/main.py lines 186-203: great-circle distance in
meters between a Waypoint and an (lon, lat) pair. -/
def haversine_distance (pointA : Waypoint) (pointB : ℝ × ℝ) : ℝ :=
  let R : ℝ := 6371000
  let phi1 := radians pointA.lat
  let phi2 := radians pointB.2
  let d_phi := radians (pointB.2 - pointA.lat)
  let d_lambda := radians (pointB.1 - pointA.lon)
  let a := Real.sin (d_phi / 2) ^ 2 +
    Real.cos phi1 * Real.cos phi2 * Real.sin (d_lambda / 2) ^ 2
  let c := 2 * atan2 (Real.sqrt a) (Real.sqrt (1 - a))
  R * c

/-- The loop of find_closest_point (src/main.py lines 207-219): pointIdx is the
index of the head of the remaining list, min_distance starts at float infinity
(the top of WithTop Real), idx starts at -1.  The source also tracks the
closest point itself in a variable that is never read; it is omitted. -/
def fcp_go (current_point : Waypoint) :
    List (ℝ × ℝ) → ℕ → WithTop ℝ → ℤ → ℤ
  | [], _, _, idx => idx
  | point :: rest, pointIdx, min_distance, idx =>
    let distance := haversine_distance current_point point
    if (distance : WithTop ℝ) < min_distance then
      fcp_go current_point rest (pointIdx + 1) (distance : WithTop ℝ) (pointIdx : ℤ)
    else
      fcp_go current_point rest (pointIdx + 1) min_distance idx

/-- find_closest_point of src/main.py: index of the first waypoint at strictly
minimal haversine distance, or -1 for the empty list. -/
def find_closest_point (current_point : Waypoint) (points : List (ℝ × ℝ)) : ℤ :=
  fcp_go current_point points 0 ⊤ (-1)

/-- move_towards of src/main.py lines 129-137.  Note the source names dx for
the latitude difference and dy for the longitude difference; positions are
(lon, lat) pairs. -/
def move_towards (current target : ℝ × ℝ) (step : ℝ) : ℝ × ℝ :=
  let dx := target.2 - current.2
  let dy := target.1 - current.1
  let dist := hypot dx dy
  if dist ≤ step then target
  else (current.1 + dy / dist * step, current.2 + dx / dist * step)

/-- is_robot_at_waypoint of src/main.py lines 140-141: planar (degree-space)
distance below the fixed threshold. -/
def is_robot_at_waypoint (robot : AgentState) (waypoint : ℝ × ℝ) : Prop :=
  hypot (robot.lon - waypoint.1) (robot.lat - waypoint.2) < 0.00001

/-- Python list indexing semantics: nonnegative indices from the front,
negative indices from the back, IndexError (none) outside those ranges. -/
def pyIndex {α : Type} (l : List α) (i : ℤ) : Option α :=
  if 0 ≤ i then l.get? i.toNat
  else if 0 ≤ i + l.length then l.get? (i + l.length).toNat
  else none

/-- The reseeding statement of get_robot (src/main.py lines 151-153): the
target index actually used by a tick, recomputed by find_closest_point only
when the stored index is the sentinel -1. -/
def seed_target (s : SystemState) : ℤ :=
  if s.target_idx = -1 then
    find_closest_point ⟨s.robot.lon, s.robot.lat⟩ s.mission_waypoints
  else s.target_idx

/-- One invocation of get_robot (src/main.py lines 144-183) acting on the
process state.  none models an uncaught IndexError from the list indexings
at lines 162 and 164. -/
def tick (s : SystemState) : Option SystemState :=
  let mission_waypoints := s.mission_waypoints
  let ti := seed_target s
  if ti = -1 then
    -- wobble fallback for an unseeded target
    let lon1 := s.robot.lon + 0.00001
    let lon2 := if lon1 > -122.420 then -122.42215 else lon1
    some { s with robot := { s.robot with lon := lon2 }, target_idx := ti }
  else
    match pyIndex mission_waypoints ti with
    | none => none
    | some wp =>
      let ti2 := if is_robot_at_waypoint s.robot wp then
          (ti + 1) % (mission_waypoints.length : ℤ)
        else ti
      match pyIndex mission_waypoints ti2 with
      | none => none
      | some target_waypoint =>
        let p := move_towards (s.robot.lon, s.robot.lat) target_waypoint 0.00001
        some { s with robot := { s.robot with lon := p.1, lat := p.2 }, target_idx := ti2 }

/-- Acknowledgment body of POST /api/mission_start. -/
structure MissionAck where
  status : String
  target : ℝ × ℝ

/-- post_mission_start of src/main.py lines 230-235.  The state is mutated
first (line 233); building the acknowledgment reads waypoints[0] (line 235),
which raises IndexError on an empty list: the response is none but the
mutation has already happened. -/
def post_mission_start (s : SystemState) (wps : List (ℝ × ℝ)) :
    SystemState × Option MissionAck :=
  let s' := { s with mission_waypoints := wps }
  match wps with
  | [] => (s', none)
  | w :: _ => (s', some { status := "accepted", target := w })

/-- The properties and geometry of the feature returned by get_robot
(src/main.py lines 167-183). -/
structure RobotFeature where
  id : String
  heading : ℤ
  status : String
  coordinates : ℝ × ℝ

/-- Response body of GET /api/robot, built from the (already mutated) state. -/
def robot_response (s : SystemState) : RobotFeature :=
  { id := s.robot.id, heading := s.robot.heading, status := "ARMED",
    coordinates := (s.robot.lon, s.robot.lat) }

/-- Operations that touch (or deliberately do not touch) the process state.
A tile request reads only the tile archive, never the navigation state. -/
inductive Op
  | getRobot : Op
  | missionStart : List (ℝ × ℝ) → Op
  | tileRequest : Op

/-- Effect of one request on the process state.  A mission submission keeps
its state mutation even when its response construction fails. -/
def stepOp (s : SystemState) : Op → Option SystemState
  | Op.getRobot => tick s
  | Op.missionStart wps => some (post_mission_start s wps).1
  | Op.tileRequest => some s

/-- Run a sequence of requests from a state; none as soon as one tick raises. -/
def run : SystemState → List Op → Option SystemState
  | s, [] => some s
  | s, op :: ops =>
    match stepOp s op with
    | none => none
    | some s' => run s' ops

/-- XYZ to TMS row conversion of src/main.py line 51. -/
def tms_row (z : ℕ) (y : ℤ) : ℤ := ((1 <<< z : ℕ) : ℤ) - 1 - y

/-- get_tile_data of src/main.py lines 41-64.  The archive is modelled as
none when the file is missing, otherwise as the (schema-unique) partial map
from (zoom_level, tile_column, tile_row) to blobs; the query key uses the
converted TMS row. -/
def get_tile_data (db : Option (ℕ → ℤ → ℤ → Option (List ℕ)))
    (z : ℕ) (x y : ℤ) : Option (List ℕ) :=
  match db with
  | none => none
  | some tiles => tiles z x (tms_row z y)

/-- Observable outcome of GET /tiles/z/x/y.pbf. -/
structure TileResponse where
  status_code : ℕ
  body : List ℕ
  content_encoding_gzip : Bool
  media_type : Option String

/-- tile_server of src/main.py lines 70-86.  Python truthiness makes both a
missing tile and an empty blob take the 204 branch; the gzip header is set
exactly when the first two payload bytes are the gzip magic 0x1f 0x8b, and
the payload is passed through unmodified. -/
def tile_server (db : Option (ℕ → ℤ → ℤ → Option (List ℕ)))
    (z : ℕ) (x y : ℤ) : TileResponse :=
  match get_tile_data db z x y with
  | some tile_data =>
    if tile_data.isEmpty then
      { status_code := 204, body := [], content_encoding_gzip := false,
        media_type := none }
    else
      { status_code := 200, body := tile_data,
        content_encoding_gzip := decide (tile_data.take 2 = [0x1f, 0x8b]),
        media_type := some "application/x-protobuf" }
  | none =>
    { status_code := 204, body := [], content_encoding_gzip := false,
      media_type := none }

end

/-- Claim C7: for every z and every y with 0 <= y < 2^z, the XYZ-to-TMS row
conversion is self-inverse, and the tile lookup queries the archive with
exactly the converted row. -/
theorem tms_row_self_inverse (z : ℕ) (y : ℤ) (h0 : 0 ≤ y) (h1 : y < 2 ^ z) :
    tms_row z (tms_row z y) = y ∧
      ∀ (tiles : ℕ → ℤ → ℤ → Option (List ℕ)) (x : ℤ),
        get_tile_data (some tiles) z x y = tiles z x (tms_row z y) := by
  constructor
  · unfold tms_row; ring
  · intro tiles x; rfl

/-- Witness for C7 at z = 1, y = 1. -/
theorem tms_row_self_inverse_witness :
    tms_row 1 (tms_row 1 1) = 1 ∧
      ∀ (tiles : ℕ → ℤ → ℤ → Option (List ℕ)) (x : ℤ),
        get_tile_data (some tiles) 1 x 1 = tiles 1 x (tms_row 1 1) :=
  tms_row_self_inverse 1 1 (by norm_num) (by norm_num)

/-- Claim C8: the tile response carries the gzip hint iff the first two bytes
of the stored payload are 0x1f 0x8b; payloads of length at most 1 are never
classified as compressed, and the body is the stored payload unmodified. -/
theorem tile_gzip_classification (db : Option (ℕ → ℤ → ℤ → Option (List ℕ)))
    (z : ℕ) (x y : ℤ) (td : List ℕ) (h : get_tile_data db z x y = some td) :
    (tile_server db z x y).body = td ∧
      ((tile_server db z x y).content_encoding_gzip = true ↔
        td.take 2 = [0x1f, 0x8b]) ∧
      (td.length ≤ 1 → (tile_server db z x y).content_encoding_gzip = false) := by
  rcases td with _ | ⟨b0, td'⟩
  · simp [tile_server, h]
  · have hne : ¬ (b0 :: td').isEmpty := by simp
    refine ⟨by simp [tile_server, h, hne], by simp [tile_server, h, hne], ?_⟩
    intro hlen
    rcases td' with _ | ⟨b1, td''⟩
    · simp [tile_server, h, hne]
    · simp at hlen
  
/-- Witness for C8 on a concrete archive storing one gzip-magic payload. -/
theorem tile_gzip_classification_witness :
    (tile_server (some fun _ _ _ => some [0x1f, 0x8b, 7]) 0 0 0).body = [0x1f, 0x8b, 7] ∧
      ((tile_server (some fun _ _ _ => some [0x1f, 0x8b, 7]) 0 0 0).content_encoding_gzip = true ↔
        ([0x1f, 0x8b, 7] : List ℕ).take 2 = [0x1f, 0x8b]) ∧
      (([0x1f, 0x8b, 7] : List ℕ).length ≤ 1 →
        (tile_server (some fun _ _ _ => some [0x1f, 0x8b, 7]) 0 0 0).content_encoding_gzip = false) :=
  tile_gzip_classification (some fun _ _ _ => some [0x1f, 0x8b, 7]) 0 0 0 _ rfl

/-- Claim C9: a missing archive file or a coordinate with no record yields the
normal empty result none, surfaced by the endpoint as status 204 with an
empty body. -/
theorem tile_absent_no_content (z : ℕ) (x y : ℤ) :
    get_tile_data none z x y = none ∧
      (∀ tiles : ℕ → ℤ → ℤ → Option (List ℕ),
        tiles z x (tms_row z y) = none → get_tile_data (some tiles) z x y = none) ∧
      (∀ db, get_tile_data db z x y = none →
        tile_server db z x y =
          { status_code := 204, body := [], content_encoding_gzip := false,
            media_type := none }) := by
  refine ⟨rfl, fun tiles h => h, fun db h => ?_⟩
  unfold tile_server
  rw [h]

/-- Witness for C9: missing archive and empty archive at z = x = y = 0. -/
theorem tile_absent_no_content_witness :
    get_tile_data none 0 0 0 = none ∧
      get_tile_data (some fun _ _ _ => none) 0 0 0 = none ∧
      tile_server none 0 0 0 =
        { status_code := 204, body := [], content_encoding_gzip := false,
          media_type := none } :=
  ⟨(tile_absent_no_content 0 0 0).1,
   (tile_absent_no_content 0 0 0).2.1 (fun _ _ _ => none) rfl,
   (tile_absent_no_content 0 0 0).2.2 none rfl⟩

/-- Unfolding of one step of the nearest-point loop. -/
theorem fcp_go_cons (c : Waypoint) (point : ℝ × ℝ) (rest : List (ℝ × ℝ))
    (i : ℕ) (m : WithTop ℝ) (idx : ℤ) :
    fcp_go c (point :: rest) i m idx =
      if (haversine_distance c point : WithTop ℝ) < m then
        fcp_go c rest (i + 1) (haversine_distance c point : WithTop ℝ) (i : ℤ)
      else fcp_go c rest (i + 1) m idx := rfl

/-- Loop invariant of the nearest-point scan: either no element beats the
running minimum and the accumulator index is returned, or the result points
at the first element realising the strict minimum below the running one. -/
theorem fcp_go_spec (c : Waypoint) (rest : List (ℝ × ℝ)) :
    ∀ (i : ℕ) (m : WithTop ℝ) (idx : ℤ),
      (fcp_go c rest i m idx = idx ∧
        ∀ j (hj : j < rest.length),
          ¬ ((haversine_distance c (rest.get ⟨j, hj⟩) : WithTop ℝ) < m))
      ∨ (∃ (j : ℕ) (hj : j < rest.length),
          fcp_go c rest i m idx = (i : ℤ) + j ∧
          (haversine_distance c (rest.get ⟨j, hj⟩) : WithTop ℝ) < m ∧
          (∀ k (hk : k < rest.length),
            haversine_distance c (rest.get ⟨j, hj⟩) ≤
              haversine_distance c (rest.get ⟨k, hk⟩)) ∧
          (∀ k (hk : k < rest.length), k < j →
            haversine_distance c (rest.get ⟨j, hj⟩) <
              haversine_distance c (rest.get ⟨k, hk⟩))) := by
  induction rest with
  | nil =>
    intro i m idx
    exact Or.inl ⟨rfl, by simp⟩
  | cons point rest ih =>
    intro i m idx
    by_cases hd : (haversine_distance c point : WithTop ℝ) < m
    · rcases ih (i + 1) (haversine_distance c point) i with ⟨heq, hall⟩ |
        ⟨j, hj, heq, hlt, hmin, hfirst⟩
      · refine Or.inr ⟨0, by simp, ?_, ?_, ?_, ?_⟩
        · rw [fcp_go_cons, if_pos hd, heq]; simp
        · simpa using hd
        · intro k hk
          match k with
          | 0 => exact le_refl _
          | Nat.succ k =>
            have hk' : k < rest.length := by simpa using hk
            have := hall k hk'
            have hle : (haversine_distance c point : WithTop ℝ) ≤
                (haversine_distance c (rest.get ⟨k, hk'⟩) : WithTop ℝ) := not_lt.mp this
            simpa using WithTop.coe_le_coe.mp hle
        · intro k hk hk0
          exact absurd hk0 (Nat.not_lt_zero k)
      · refine Or.inr ⟨j + 1, by simpa using Nat.succ_lt_succ hj, ?_, ?_, ?_, ?_⟩
        · rw [fcp_go_cons, if_pos hd, heq]; push_cast; ring
        · calc ((haversine_distance c ((point :: rest).get ⟨j + 1, _⟩) : WithTop ℝ))
              = (haversine_distance c (rest.get ⟨j, hj⟩) : WithTop ℝ) := rfl
            _ < (haversine_distance c point : WithTop ℝ) := hlt
            _ < m := hd
        · intro k hk
          match k with
          | 0 =>
            have : haversine_distance c (rest.get ⟨j, hj⟩) < haversine_distance c point :=
              WithTop.coe_lt_coe.mp hlt
            exact le_of_lt this
          | Nat.succ k =>
            have hk' : k < rest.length := by simpa using hk
            exact hmin k hk'
        · intro k hk hkj
          match k, hk, hkj with
          | 0, hk, hkj => exact WithTop.coe_lt_coe.mp hlt
          | Nat.succ k, hk, hkj =>
            have hk' : k < rest.length := by simpa using hk
            exact hfirst k hk' (Nat.lt_of_succ_lt_succ hkj)
    · rcases ih (i + 1) m idx with ⟨heq, hall⟩ | ⟨j, hj, heq, hlt, hmin, hfirst⟩
      · refine Or.inl ⟨?_, ?_⟩
        · rw [fcp_go_cons, if_neg hd, heq]
        · intro k hk
          match k with
          | 0 => exact hd
          | Nat.succ k =>
            have hk' : k < rest.length := by simpa using hk
            exact hall k hk'
      · have hme : m ≤ (haversine_distance c point : WithTop ℝ) := not_lt.mp hd
        have hjp : haversine_distance c (rest.get ⟨j, hj⟩) < haversine_distance c point :=
          WithTop.coe_lt_coe.mp (lt_of_lt_of_le hlt hme)
        refine Or.inr ⟨j + 1, by simpa using Nat.succ_lt_succ hj, ?_, ?_, ?_, ?_⟩
        · rw [fcp_go_cons, if_neg hd, heq]; push_cast; ring
        · exact hlt
        · intro k hk
          match k with
          | 0 => exact le_of_lt hjp
          | Nat.succ k =>
            have hk' : k < rest.length := by simpa using hk
            exact hmin k hk'
        · intro k hk hkj
          match k, hk, hkj with
          | 0, hk, hkj => exact hjp
          | Nat.succ k, hk, hkj =>
            have hk' : k < rest.length := by simpa using hk
            exact hfirst k hk' (Nat.lt_of_succ_lt_succ hkj)

/-- Claim C4: on a non-empty list find_closest_point returns an index of a
waypoint at minimal haversine distance, and the lowest such index (earlier
waypoints are strictly farther); on the empty list it returns -1. -/
theorem find_closest_point_first_argmin (current_point : Waypoint)
    (points : List (ℝ × ℝ)) :
    (points = [] → find_closest_point current_point points = -1) ∧
    (points ≠ [] → ∃ (k : ℕ) (hk : k < points.length),
      find_closest_point current_point points = (k : ℤ) ∧
      (∀ j (hj : j < points.length),
        haversine_distance current_point (points.get ⟨k, hk⟩) ≤
          haversine_distance current_point (points.get ⟨j, hj⟩)) ∧
      (∀ j (hj : j < points.length), j < k →
        haversine_distance current_point (points.get ⟨k, hk⟩) <
          haversine_distance current_point (points.get ⟨j, hj⟩))) := by
  constructor
  · intro h; subst h; rfl
  · intro hne
    rcases fcp_go_spec current_point points 0 ⊤ (-1) with ⟨heq, hall⟩ |
      ⟨j, hj, heq, hlt, hmin, hfirst⟩
    · rcases points with _ | ⟨p, rest⟩
      · exact absurd rfl hne
      · exact absurd (WithTop.coe_lt_top _) (hall 0 (by simp))
    · exact ⟨j, hj, by simpa using heq, hmin,
        fun k hk hkj => hfirst k hk hkj⟩

/-- Witness for C4 on the one-element plan [(0, 0)] from the origin. -/
theorem find_closest_point_first_argmin_witness :
    ∃ (k : ℕ) (hk : k < ([((0 : ℝ), (0 : ℝ))] : List (ℝ × ℝ)).length),
      find_closest_point ⟨0, 0⟩ [((0 : ℝ), (0 : ℝ))] = (k : ℤ) ∧
      (∀ j (hj : j < ([((0 : ℝ), (0 : ℝ))] : List (ℝ × ℝ)).length),
        haversine_distance ⟨0, 0⟩ (([((0 : ℝ), (0 : ℝ))] : List (ℝ × ℝ)).get ⟨k, hk⟩) ≤
          haversine_distance ⟨0, 0⟩ (([((0 : ℝ), (0 : ℝ))] : List (ℝ × ℝ)).get ⟨j, hj⟩)) ∧
      (∀ j (hj : j < ([((0 : ℝ), (0 : ℝ))] : List (ℝ × ℝ)).length), j < k →
        haversine_distance ⟨0, 0⟩ (([((0 : ℝ), (0 : ℝ))] : List (ℝ × ℝ)).get ⟨k, hk⟩) <
          haversine_distance ⟨0, 0⟩ (([((0 : ℝ), (0 : ℝ))] : List (ℝ × ℝ)).get ⟨j, hj⟩)) :=
  (find_closest_point_first_argmin ⟨0, 0⟩ [((0 : ℝ), (0 : ℝ))]).2 (List.cons_ne_nil _ _)

/-- hypot is symmetric in its two arguments. -/
theorem hypot_comm (a b : ℝ) : hypot a b = hypot b a := by
  unfold hypot; rw [add_comm]

/-- hypot scales by the absolute value of a common factor. -/
theorem hypot_smul (k a b : ℝ) : hypot (k * a) (k * b) = |k| * hypot a b := by
  unfold hypot
  rw [mul_pow, mul_pow, ← mul_add, Real.sqrt_mul (sq_nonneg k), Real.sqrt_sq_eq_abs]

/-- Claim C6: when the coordinate-space distance to the target is below the
step the move lands exactly on the target; otherwise the move follows the
normalized direction vector and advances by exactly the step magnitude. -/
theorem move_towards_step_spec (current target : ℝ × ℝ) (step : ℝ)
    (hstep : 0 < step) :
    (hypot (target.2 - current.2) (target.1 - current.1) < step →
      move_towards current target step = target) ∧
    (step ≤ hypot (target.2 - current.2) (target.1 - current.1) →
      move_towards current target step =
        (current.1 + (target.1 - current.1) /
            hypot (target.2 - current.2) (target.1 - current.1) * step,
         current.2 + (target.2 - current.2) /
            hypot (target.2 - current.2) (target.1 - current.1) * step) ∧
      hypot ((move_towards current target step).1 - current.1)
        ((move_towards current target step).2 - current.2) = step) := by
  constructor
  · intro h
    simp only [move_towards]
    rw [if_pos (le_of_lt h)]
  · intro h
    have hd0 : 0 < hypot (target.2 - current.2) (target.1 - current.1) :=
      lt_of_lt_of_le hstep h
    by_cases hds : hypot (target.2 - current.2) (target.1 - current.1) ≤ step
    · have heq : hypot (target.2 - current.2) (target.1 - current.1) = step :=
        le_antisymm hds h
      have hmove : move_towards current target step = target := by
        simp only [move_towards]; rw [if_pos hds]
      have hform : move_towards current target step =
          (current.1 + (target.1 - current.1) /
              hypot (target.2 - current.2) (target.1 - current.1) * step,
           current.2 + (target.2 - current.2) /
              hypot (target.2 - current.2) (target.1 - current.1) * step) := by
        rw [hmove, heq]
        rw [div_mul_cancel₀ _ (ne_of_gt hstep), div_mul_cancel₀ _ (ne_of_gt hstep)]
        exact Prod.ext (by ring) (by ring)
      refine ⟨hform, ?_⟩
      rw [hmove, hypot_comm, heq]
    · have hmove : move_towards current target step =
          (current.1 + (target.1 - current.1) /
              hypot (target.2 - current.2) (target.1 - current.1) * step,
           current.2 + (target.2 - current.2) /
              hypot (target.2 - current.2) (target.1 - current.1) * step) := by
        simp only [move_towards]; rw [if_neg hds]
      refine ⟨hmove, ?_⟩
      rw [hmove]
      have e1 : current.1 + (target.1 - current.1) /
          hypot (target.2 - current.2) (target.1 - current.1) * step - current.1 =
          (step / hypot (target.2 - current.2) (target.1 - current.1)) *
            (target.1 - current.1) := by ring
      have e2 : current.2 + (target.2 - current.2) /
          hypot (target.2 - current.2) (target.1 - current.1) * step - current.2 =
          (step / hypot (target.2 - current.2) (target.1 - current.1)) *
            (target.2 - current.2) := by ring
      have hd0' : 0 < hypot (target.1 - current.1) (target.2 - current.2) := by
        rw [hypot_comm]; exact hd0
      rw [e1, e2, hypot_smul, abs_of_pos (div_pos hstep hd0), hypot_comm,
        div_mul_cancel₀ _ (ne_of_gt hd0')]

/-- Witness for C6: from the origin toward (3, 4) with unit step. -/
theorem move_towards_step_spec_witness :
    (hypot (((3 : ℝ), (4 : ℝ)).2 - ((0 : ℝ), (0 : ℝ)).2)
        (((3 : ℝ), (4 : ℝ)).1 - ((0 : ℝ), (0 : ℝ)).1) < 1 →
      move_towards ((0 : ℝ), (0 : ℝ)) ((3 : ℝ), (4 : ℝ)) 1 = ((3 : ℝ), (4 : ℝ))) ∧
    (1 ≤ hypot (((3 : ℝ), (4 : ℝ)).2 - ((0 : ℝ), (0 : ℝ)).2)
        (((3 : ℝ), (4 : ℝ)).1 - ((0 : ℝ), (0 : ℝ)).1) →
      move_towards ((0 : ℝ), (0 : ℝ)) ((3 : ℝ), (4 : ℝ)) 1 =
        (((0 : ℝ), (0 : ℝ)).1 + (((3 : ℝ), (4 : ℝ)).1 - ((0 : ℝ), (0 : ℝ)).1) /
            hypot (((3 : ℝ), (4 : ℝ)).2 - ((0 : ℝ), (0 : ℝ)).2)
              (((3 : ℝ), (4 : ℝ)).1 - ((0 : ℝ), (0 : ℝ)).1) * 1,
         ((0 : ℝ), (0 : ℝ)).2 + (((3 : ℝ), (4 : ℝ)).2 - ((0 : ℝ), (0 : ℝ)).2) /
            hypot (((3 : ℝ), (4 : ℝ)).2 - ((0 : ℝ), (0 : ℝ)).2)
              (((3 : ℝ), (4 : ℝ)).1 - ((0 : ℝ), (0 : ℝ)).1) * 1) ∧
      hypot ((move_towards ((0 : ℝ), (0 : ℝ)) ((3 : ℝ), (4 : ℝ)) 1).1 - ((0 : ℝ), (0 : ℝ)).1)
        ((move_towards ((0 : ℝ), (0 : ℝ)) ((3 : ℝ), (4 : ℝ)) 1).2 - ((0 : ℝ), (0 : ℝ)).2) = 1) :=
  move_towards_step_spec ((0 : ℝ), (0 : ℝ)) ((3 : ℝ), (4 : ℝ)) 1 (by norm_num)

/-- Python indexing at an in-range nonnegative index returns the element. -/
theorem pyIndex_of_nonneg {α : Type} (l : List α) (i : ℤ) (h0 : 0 ≤ i)
    (h : i.toNat < l.length) : pyIndex l i = some (l.get ⟨i.toNat, h⟩) := by
  unfold pyIndex
  rw [if_pos h0, List.get?_eq_get h]

/-- Claim C5: from a valid target index, when the agent is within the planar
threshold of the target waypoint, the tick advances the target index to
(index + 1) mod length, which is again a valid index. -/
theorem tick_advances_target_modulo (s : SystemState)
    (h0 : 0 ≤ s.target_idx)
    (hlt : s.target_idx.toNat < s.mission_waypoints.length)
    (hat : is_robot_at_waypoint s.robot
      (s.mission_waypoints.get ⟨s.target_idx.toNat, hlt⟩)) :
    ∃ s', tick s = some s' ∧
      s'.target_idx = (s.target_idx + 1) % (s.mission_waypoints.length : ℤ) ∧
      0 ≤ s'.target_idx ∧ s'.target_idx < (s.mission_waypoints.length : ℤ) := by
  have hne : s.target_idx ≠ -1 := by omega
  have hseed : seed_target s = s.target_idx := by
    unfold seed_target; rw [if_neg hne]
  have hlenne : (s.mission_waypoints.length : ℤ) ≠ 0 := by omega
  have hlenpos : 0 < (s.mission_waypoints.length : ℤ) := by omega
  have hmod0 : 0 ≤ (s.target_idx + 1) % (s.mission_waypoints.length : ℤ) :=
    Int.emod_nonneg _ hlenne
  have hmodlt : (s.target_idx + 1) % (s.mission_waypoints.length : ℤ) <
      (s.mission_waypoints.length : ℤ) :=
    Int.emod_lt_of_pos _ hlenpos
  have h2lt : ((s.target_idx + 1) % (s.mission_waypoints.length : ℤ)).toNat <
      s.mission_waypoints.length := by omega
  have hidx1 : pyIndex s.mission_waypoints s.target_idx =
      some (s.mission_waypoints.get ⟨s.target_idx.toNat, hlt⟩) :=
    pyIndex_of_nonneg _ _ h0 hlt
  have hidx2 : pyIndex s.mission_waypoints
      ((s.target_idx + 1) % (s.mission_waypoints.length : ℤ)) =
      some (s.mission_waypoints.get ⟨_, h2lt⟩) :=
    pyIndex_of_nonneg _ _ hmod0 h2lt
  refine ⟨{ s with
      robot := { s.robot with
        lon := (move_towards (s.robot.lon, s.robot.lat)
          (s.mission_waypoints.get ⟨_, h2lt⟩) 0.00001).1,
        lat := (move_towards (s.robot.lon, s.robot.lat)
          (s.mission_waypoints.get ⟨_, h2lt⟩) 0.00001).2 },
      target_idx := (s.target_idx + 1) % (s.mission_waypoints.length : ℤ) },
    ?_, rfl, hmod0, hmodlt⟩
  simp only [tick, hseed, if_neg hne, hidx1, if_pos hat, hidx2]

/-- Concrete tracking state for the C5 witness: three waypoints, target
index 2, agent exactly at waypoint 2. -/
def demoState5 : SystemState :=
  { robot := { id := "rover-01", lat := 0, lon := 0, heading := 90 },
    mission_waypoints := [((10 : ℝ), (10 : ℝ)), ((20 : ℝ), (20 : ℝ)), ((0 : ℝ), (0 : ℝ))],
    target_idx := 2 }

/-- Witness for C5: reaching waypoint 2 of a 3-waypoint plan wraps to 0. -/
theorem tick_advances_target_modulo_witness :
    ∃ s', tick demoState5 = some s' ∧
      s'.target_idx = (demoState5.target_idx + 1) %
        (demoState5.mission_waypoints.length : ℤ) ∧
      0 ≤ s'.target_idx ∧
      s'.target_idx < (demoState5.mission_waypoints.length : ℤ) :=
  tick_advances_target_modulo demoState5 (by norm_num [demoState5])
    (by norm_num [demoState5])
    (by
      show hypot ((0 : ℝ) - (0 : ℝ)) ((0 : ℝ) - (0 : ℝ)) < 0.00001
      norm_num [hypot, Real.sqrt_zero])

/-- A successful tick changes only longitude, latitude and the target index:
identifier, heading and the mission plan are untouched. -/
theorem tick_frame (s s' : SystemState) (h : tick s = some s') :
    s'.robot.id = s.robot.id ∧ s'.robot.heading = s.robot.heading ∧
      s'.mission_waypoints = s.mission_waypoints := by
  simp only [tick] at h
  split at h
  · injection h with h2
    subst h2
    exact ⟨rfl, rfl, rfl⟩
  · split at h
    · exact Option.noConfusion h
    · split at h
      · exact Option.noConfusion h
      · injection h with h2
        subst h2
        exact ⟨rfl, rfl, rfl⟩

/-- Identifier and heading are preserved along every successful request
sequence. -/
theorem run_preserves_robot_identity (ops : List Op) :
    ∀ (s0 s : SystemState), run s0 ops = some s →
      s.robot.id = s0.robot.id ∧ s.robot.heading = s0.robot.heading := by
  induction ops with
  | nil =>
    intro s0 s h
    injection h with h2
    subst h2
    exact ⟨rfl, rfl⟩
  | cons op ops ih =>
    intro s0 s h
    simp only [run] at h
    cases hst : stepOp s0 op with
    | none => rw [hst] at h; exact Option.noConfusion h
    | some s1 =>
      rw [hst] at h
      have h1 := ih s1 s h
      cases op with
      | getRobot =>
        have hf := tick_frame s0 s1 hst
        exact ⟨h1.1.trans hf.1, h1.2.trans hf.2.1⟩
      | missionStart wps =>
        have he : (post_mission_start s0 wps).1 = s1 := Option.some.inj hst
        have hr : s1.robot = s0.robot := by
          rw [← he]; unfold post_mission_start; cases wps <;> rfl
        exact ⟨by rw [h1.1, hr], by rw [h1.2, hr]⟩
      | tileRequest =>
        have he : s0 = s1 := Option.some.inj hst
        subst he
        exact h1

/-- Claim C10: across every sequence of robot reads, mission submissions and
tile requests, the agent identifier, heading and reported status never change:
a tick mutates only longitude, latitude and the target index, and from the
initial state the heading stays 90 and the identifier rover-01 forever. -/
theorem agent_frame_invariants :
    (∀ s s', tick s = some s' →
      s'.robot.id = s.robot.id ∧ s'.robot.heading = s.robot.heading ∧
        s'.mission_waypoints = s.mission_waypoints) ∧
    (∀ s : SystemState, (robot_response s).status = "ARMED" ∧
      (robot_response s).id = s.robot.id ∧
      (robot_response s).heading = s.robot.heading) ∧
    (∀ (ops : List Op) (s : SystemState), run init ops = some s →
      s.robot.heading = 90 ∧ s.robot.id = "rover-01") := by
  refine ⟨tick_frame, fun s => ⟨rfl, rfl, rfl⟩, ?_⟩
  intro ops s h
  have hp := run_preserves_robot_identity ops init s h
  exact ⟨hp.2, hp.1⟩

/-- Witness for C10: the empty request sequence from the initial state. -/
theorem agent_frame_invariants_witness :
    init.robot.heading = 90 ∧ init.robot.id = "rover-01" :=
  agent_frame_invariants.2.2 [] init rfl

/-- The haversine distance from a point to itself is zero. -/
theorem haversine_distance_self (lon lat : ℝ) :
    haversine_distance ⟨lon, lat⟩ (lon, lat) = 0 := by
  simp only [haversine_distance]
  norm_num [radians, atan2, Real.sin_zero, Real.sqrt_zero, Real.sqrt_one,
    Real.arctan_zero]

/-- On a one-waypoint plan the nearest-point scan always selects index 0. -/
theorem fcp_single (c : Waypoint) (p : ℝ × ℝ) : find_closest_point c [p] = 0 := by
  unfold find_closest_point
  rw [fcp_go_cons, if_pos (WithTop.coe_lt_top _)]
  rfl

/-- The starting coordinates of the simulated agent, as a (lon, lat) pair. -/
def startPos : ℝ × ℝ := (-122.42215, 37.41451)

/-- A waypoint 180 degrees of longitude east of the start position. -/
def farPos : ℝ × ℝ := (57.57785, 37.41451)

/-- The process state right after submitting the plan [startPos] from the
initial state: plan replaced, target index still the sentinel. -/
def preSeedState : SystemState :=
  { robot := { id := "rover-01", lat := 37.41451, lon := -122.42215, heading := 90 },
    mission_waypoints := [startPos], target_idx := -1 }

/-- The state after one further robot read: the agent snapped onto its own
position and the target index is 0. -/
def seededState : SystemState :=
  { robot := { id := "rover-01", lat := 37.41451, lon := -122.42215, heading := 90 },
    mission_waypoints := [startPos], target_idx := 0 }

/-- The first robot read after submitting [startPos] seeds the target to 0
and leaves the agent exactly on the single waypoint. -/
theorem tick_seeds_and_snaps : tick preSeedState = some seededState := by
  have hseed : seed_target preSeedState = 0 := by
    unfold seed_target
    rw [if_pos (show preSeedState.target_idx = -1 from rfl)]
    exact fcp_single _ _
  have hat : is_robot_at_waypoint preSeedState.robot startPos := by
    show hypot (-122.42215 - startPos.1) (37.41451 - startPos.2) < 0.00001
    norm_num [startPos, hypot, Real.sqrt_zero]
  have hmv : move_towards (preSeedState.robot.lon, preSeedState.robot.lat)
      startPos 0.00001 = startPos := by
    simp only [move_towards, startPos, preSeedState]
    rw [if_pos (by norm_num [hypot, Real.sqrt_zero])]
  have h01 : ((0 : ℤ) + 1) % (([startPos] : List (ℝ × ℝ)).length : ℤ) = 0 := by
    norm_num
  simp only [tick, hseed, if_neg (show ¬ (0 : ℤ) = -1 by norm_num),
    show preSeedState.mission_waypoints = [startPos] from rfl,
    show pyIndex [startPos] (0 : ℤ) = some startPos from rfl,
    if_pos hat, h01, hmv]
  rfl

/-- Clearing the mission does not reset the seeded target index, so the next
robot read indexes the empty plan and raises. -/
theorem tick_after_clear_raises :
    tick { robot := seededState.robot, mission_waypoints := [], target_idx := 0 } =
      none := by
  have hseed : seed_target
      { robot := seededState.robot, mission_waypoints := [], target_idx := 0 } = 0 := by
    unfold seed_target
    rw [if_neg (show ¬ (0 : ℤ) = -1 by norm_num)]
  simp only [tick, hseed, if_neg (show ¬ (0 : ℤ) = -1 by norm_num),
    show pyIndex ([] : List (ℝ × ℝ)) (0 : ℤ) = none from rfl]

/-- Claim C1 (refuted by the code): submit the one-waypoint plan [startPos],
read the robot once (the target index becomes 0), then submit the empty plan.
The target index is never reset to the sentinel, so the next robot read
indexes position 0 of the empty plan and raises IndexError: the run of these
four requests from the initial state evaluates to none instead of keeping the
index invariant. -/
theorem mission_clear_crashes_next_tick :
    run init [Op.missionStart [startPos], Op.getRobot, Op.missionStart [],
      Op.getRobot] = none := by
  have h1 : stepOp init (Op.missionStart [startPos]) = some preSeedState := rfl
  have h2 : stepOp preSeedState Op.getRobot = some seededState :=
    tick_seeds_and_snaps
  have h3 : stepOp seededState (Op.missionStart []) =
      some { robot := seededState.robot, mission_waypoints := [], target_idx := 0 } :=
    rfl
  have h4 : stepOp { robot := seededState.robot, mission_waypoints := [], target_idx := 0 } Op.getRobot = none := tick_after_clear_raises
  simp only [run, h1, h2, h3, h4]

/-- Claim C2 (refuted by the code on the empty sequence): submitting the empty
waypoint list from a state holding a non-empty plan replaces the plan (the
mutation happens first), and only then does the acknowledgment construction
fail (IndexError on waypoints[0], modelled as a none response): the operation
fails yet the mission state is changed. -/
theorem mission_start_empty_mutates_despite_failure :
    post_mission_start seededState [] =
      ({ robot := seededState.robot, mission_waypoints := [], target_idx := 0 }, none) ∧
    seededState.mission_waypoints ≠ [] := by
  exact ⟨rfl, by simp [seededState]⟩

/-- The haversine distance from the start position to the waypoint 180
degrees of longitude away is strictly positive. -/
theorem haversine_far_pos :
    0 < haversine_distance ⟨-122.42215, 37.41451⟩ farPos := by
  have hpi := Real.pi_pos
  have hlb : 0 < radians 37.41451 := by
    unfold radians; positivity
  have hub : radians 37.41451 < Real.pi / 2 := by
    unfold radians; nlinarith
  have hcos : 0 < Real.cos (radians 37.41451) :=
    Real.cos_pos_of_mem_Ioo ⟨by nlinarith, hub⟩
  have hsin : 0 < Real.sin (radians 37.41451) :=
    Real.sin_pos_of_pos_of_lt_pi hlb (by nlinarith)
  have h0 : radians (37.41451 - 37.41451) = 0 := by norm_num [radians]
  have h180 : radians (57.57785 - -122.42215) = Real.pi := by
    rw [show (57.57785 - -122.42215 : ℝ) = 180 by norm_num]
    unfold radians
    field_simp
  simp only [haversine_distance, farPos]
  rw [h0, h180]
  norm_num [Real.sin_zero, Real.sin_pi_div_two]
  rw [show (3741451 / 100000 : ℝ) = 37.41451 by norm_num]
  rw [Real.sqrt_mul_self (le_of_lt hcos)]
  have h1ma : (1 : ℝ) - Real.cos (radians 37.41451) * Real.cos (radians 37.41451) =
      Real.sin (radians 37.41451) * Real.sin (radians 37.41451) := by
    have hpy := Real.sin_sq_add_cos_sq (radians 37.41451)
    nlinarith
  rw [h1ma, Real.sqrt_mul_self (le_of_lt hsin)]
  have hat2 : atan2 (Real.cos (radians 37.41451)) (Real.sin (radians 37.41451)) =
      Real.arctan (Real.cos (radians 37.41451) / Real.sin (radians 37.41451)) := by
    unfold atan2
    rw [if_pos hsin]
  rw [hat2]
  have harc : 0 < Real.arctan (Real.cos (radians 37.41451) / Real.sin (radians 37.41451)) := by
    have h := Real.arctan_strictMono (div_pos hcos hsin)
    rwa [Real.arctan_zero] at h
  nlinarith

/-- From the start position, the nearest waypoint of the plan
[farPos, startPos] is index 1 (distance zero beats the positive distance). -/
theorem fcp_far_start :
    find_closest_point ⟨-122.42215, 37.41451⟩ [farPos, startPos] = 1 := by
  unfold find_closest_point
  rw [fcp_go_cons, if_pos (WithTop.coe_lt_top _), fcp_go_cons]
  have hz : haversine_distance ⟨-122.42215, 37.41451⟩ startPos = 0 := by
    show haversine_distance ⟨-122.42215, 37.41451⟩ (-122.42215, 37.41451) = 0
    exact haversine_distance_self (-122.42215) 37.41451
  rw [hz, if_pos (WithTop.coe_lt_coe.mpr haversine_far_pos)]
  norm_num [fcp_go]

/-- The state after submitting the replacement plan [farPos, startPos] while
already tracking with target index 0. -/
def replacedState : SystemState :=
  { robot := { id := "rover-01", lat := 37.41451, lon := -122.42215, heading := 90 },
    mission_waypoints := [farPos, startPos], target_idx := 0 }

/-- The robot read following the plan replacement keeps the stale target
index 0 instead of reselecting the nearest waypoint. -/
theorem tick_after_replacement_keeps_target :
    ∃ s3, tick replacedState = some s3 ∧ s3.target_idx = 0 := by
  have hseed : seed_target replacedState = 0 := by
    unfold seed_target
    rw [if_neg (show ¬ replacedState.target_idx = -1 by norm_num [replacedState])]
    rfl
  have hnotat : ¬ is_robot_at_waypoint replacedState.robot farPos := by
    show ¬ hypot (-122.42215 - farPos.1) (37.41451 - farPos.2) < 0.00001
    rw [show (-122.42215 - farPos.1 : ℝ) = -180 by norm_num [farPos],
        show (37.41451 - farPos.2 : ℝ) = 0 by norm_num [farPos]]
    unfold hypot
    rw [show ((-180 : ℝ) ^ 2 + 0 ^ 2) = 180 ^ 2 by norm_num,
        Real.sqrt_sq (by norm_num : (0 : ℝ) ≤ 180)]
    norm_num
  have hpy0 : pyIndex [farPos, startPos] (0 : ℤ) = some farPos := rfl
  refine ⟨⟨⟨"rover-01", (move_towards (replacedState.robot.lon, replacedState.robot.lat) farPos 0.00001).2, (move_towards (replacedState.robot.lon, replacedState.robot.lat) farPos 0.00001).1, 90⟩, [farPos, startPos], 0⟩, ?_, rfl⟩
  simp only [tick, hseed, if_neg (show ¬ (0 : ℤ) = -1 by norm_num),
    show replacedState.mission_waypoints = [farPos, startPos] from rfl,
    hpy0, if_neg hnotat]
  rfl

/-- Claim C3 counterexample: from the initial state, submit [startPos], read
the robot once (target becomes 0, agent sits on startPos), then submit the
replacement plan [farPos, startPos].  The nearest waypoint of the new plan is
index 1, but the next robot read does not re-seed: it keeps target index 0. -/
theorem mission_start_no_reseed_cex :
    run init [Op.missionStart [startPos], Op.getRobot,
      Op.missionStart [farPos, startPos]] = some replacedState ∧
    find_closest_point ⟨replacedState.robot.lon, replacedState.robot.lat⟩
      replacedState.mission_waypoints = 1 ∧
    (∃ s3, tick replacedState = some s3 ∧ s3.target_idx = 0) ∧
    (0 : ℤ) ≠ 1 := by
  refine ⟨?_, ?_, tick_after_replacement_keeps_target, by norm_num⟩
  · have h1 : stepOp init (Op.missionStart [startPos]) = some preSeedState := rfl
    have h2 : stepOp preSeedState Op.getRobot = some seededState :=
      tick_seeds_and_snaps
    have h3 : stepOp seededState (Op.missionStart [farPos, startPos]) =
        some replacedState := rfl
    simp only [run, h1, h2, h3]
  · show find_closest_point ⟨-122.42215, 37.41451⟩ [farPos, startPos] = 1
    exact fcp_far_start

/-- Claim C3 as amended: a mission submission leaves the target index
unchanged, and the next robot read recomputes the target by
find_closest_point only when the stored index is the sentinel -1; otherwise
the previous index is kept. -/
theorem reseed_only_from_sentinel (s : SystemState) (wps : List (ℝ × ℝ)) :
    (post_mission_start s wps).1.target_idx = s.target_idx ∧
    seed_target (post_mission_start s wps).1 =
      (if s.target_idx = -1 then
        find_closest_point ⟨s.robot.lon, s.robot.lat⟩ wps
      else s.target_idx) := by
  have h1 : (post_mission_start s wps).1 =
      { robot := s.robot, mission_waypoints := wps, target_idx := s.target_idx } := by
    cases wps <;> rfl
  rw [h1]
  exact ⟨rfl, rfl⟩
